import Mathlib

/-!
Verification of the framework-update-checker pipeline
(`backend/grc/routes/changemanagement/framework_update_checker.py`).

The Python code is shallowly embedded: strings are `List Char` / `String`,
Python `dict`s coming from `json.loads` are a `Json` value type, Python
exceptions are an explicit `Except PyErr` monad, and the network / file
system are explicit environments and state.  The specific regular
expressions used by the source are modelled as executable scanning
functions with the leftmost-match / backtracking semantics of Python's
`re` module for exactly those patterns.
-/

set_option maxRecDepth 4000

/-- Python exception classes that can escape the embedded code. -/
inductive PyErr where
  | attributeError
  | typeError
  | valueError
  | keyError
  | httpStatusError (code : Nat)
  | requestError
  | otherError
deriving DecidableEq, Repr

/-! ### Named character constants used throughout the embedding -/

/-- Backtick character. -/
def tick : Char := Char.ofNat 96

/-- Left curly brace. -/
def lcb : Char := Char.ofNat 123

/-- Right curly brace. -/
def rcb : Char := Char.ofNat 125

/-- Double-quote character. -/
def dq : Char := Char.ofNat 34

/-- Backslash character. -/
def bsl : Char := Char.ofNat 92

/-- Single-quote (apostrophe) character. -/
def apo : Char := Char.ofNat 39

/-! ### String scanning utilities (Python `str` / `re` helpers) -/

/-- Whitespace for Python's `str.strip()` and the regex class `\s`
(ASCII): space, tab, newline, carriage return, vertical tab, form feed. -/
def pySpace (c : Char) : Bool :=
  c = ' ' || c = '\t' || c = '\n' || c = '\r' || c.toNat = 11 || c.toNat = 12

/-- Python `str.strip()` on a character list. -/
def stripL (cs : List Char) : List Char :=
  ((cs.dropWhile pySpace).reverse.dropWhile pySpace).reverse

/-- ASCII lower-casing of a character list (Python `str.lower()` on the
ASCII strings this code handles). -/
def lowerL (cs : List Char) : List Char := cs.map Char.toLower

/-- Case-insensitive character comparison (ASCII). -/
def eqCI (a b : Char) : Bool := a.toLower = b.toLower

/-- Case-insensitive prefix test. -/
def isPreCI : List Char → List Char → Bool
  | [], _ => true
  | _ :: _, [] => false
  | p :: ps, c :: cs => eqCI p c && isPreCI ps cs

/-- Split a list at the first occurrence of `pat`, returning the part
before the occurrence and the part after it (Python `re.search` on a
literal pattern). -/
def splitFirst (pat : List Char) : List Char → Option (List Char × List Char)
  | [] => if pat.isEmpty then some ([], []) else none
  | c :: cs =>
    if pat.isPrefixOf (c :: cs) then some ([], (c :: cs).drop pat.length)
    else
      match splitFirst pat cs with
      | some (a, b) => some (c :: a, b)
      | none => none

/-- Split at the first case-insensitive occurrence of `pat`, returning
(before, matched text, after). -/
def splitFirstCI (pat : List Char) : List Char → Option (List Char × List Char × List Char)
  | [] => if pat.isEmpty then some ([], [], []) else none
  | c :: cs =>
    if isPreCI pat (c :: cs) then
      some ([], (c :: cs).take pat.length, (c :: cs).drop pat.length)
    else
      match splitFirstCI pat cs with
      | some (a, m, b) => some (c :: a, m, b)
      | none => none

/-- Python's `pat in s` substring test. -/
def containsSub (hay pat : List Char) : Bool := (splitFirst pat hay).isSome

/-- Case-insensitive substring test. -/
def containsSubCI (hay pat : List Char) : Bool := (splitFirstCI pat hay).isSome

/-- Leftmost-match search: try the matcher at every start position. -/
def searchAt (m : List Char → Option (List Char)) : List Char → Option (List Char)
  | [] => m []
  | c :: cs =>
    match m (c :: cs) with
    | some r => some r
    | none => searchAt m cs

/-- Word character for the regexes' `\w` / `\b` (ASCII). -/
def wordChar (c : Char) : Bool := c.isAlphanum || c = '_'

/-- Leftmost-match search for a matcher that needs to know whether the
previous character was a word character (`\b` handling).  The initial
`prevW` is `false` (start of string is a boundary before a word char). -/
def searchB (m : Bool → List Char → Option (List Char)) : Bool → List Char → Option (List Char)
  | prevW, [] => m prevW []
  | prevW, c :: cs =>
    match m prevW (c :: cs) with
    | some r => some r
    | none => searchB m (wordChar c) cs

/-! ### JSON values (results of Python `json.loads`) -/

/-- JSON values.  Numbers are modelled as integers; fractional literals
are treated as unparseable by the embedded parser. -/
inductive Json where
  | null
  | bool (b : Bool)
  | num (n : Int)
  | str (s : String)
  | arr (xs : List Json)
  | obj (kvs : List (String × Json))

/-- Python truthiness of a JSON value (`if parsed:`). -/
def truthy : Json → Bool
  | .null => false
  | .bool b => b
  | .num n => n ≠ 0
  | .str s => s ≠ ""
  | .arr xs => ¬ xs.isEmpty
  | .obj kvs => ¬ kvs.isEmpty

/-- Truthiness of an optional value (`dict.get` result: absent ↦ `None`). -/
def truthyO : Option Json → Bool
  | none => false
  | some v => truthy v

/-- `dict` lookup on an association list (first binding wins; the parser
keeps bindings duplicate-free). -/
def getKV : List (String × Json) → String → Option Json
  | [], _ => none
  | (k, v) :: rest, key => if k = key then some v else getKV rest key

/-- `dict` assignment: replace the first binding of `key`, or append. -/
def setKV : List (String × Json) → String → Json → List (String × Json)
  | [], key, v => [(key, v)]
  | (k, w) :: rest, key, v =>
    if k = key then (key, v) :: rest else (k, w) :: setKV rest key v

/-- `parsed.get(key)`: raises `AttributeError` when the receiver is not a
dict (e.g. a JSON array or string), exactly as Python does. -/
def jsonGetE : Json → String → Except PyErr (Option Json)
  | .obj kvs, k => .ok (getKV kvs k)
  | _, _ => .error .attributeError

/-- `parsed[key] = v` on a dict; leaves non-dicts unchanged (the embedded
code only assigns after a successful `.get`, hence on dicts). -/
def jsonSetTop : Json → String → Json → Json
  | .obj kvs, k, v => .obj (setKV kvs k v)
  | j, _, _ => j

/-! ### A JSON parser modelling `json.loads` -/

/-- JSON whitespace accepted by `json.loads` between tokens. -/
def jsonWs (c : Char) : Bool := c = ' ' || c = '\t' || c = '\n' || c = '\r'

/-- Skip JSON whitespace. -/
def skipWs (cs : List Char) : List Char := cs.dropWhile jsonWs

/-- Hexadecimal digit value. -/
def hexVal (c : Char) : Option Nat :=
  if c.isDigit then some (c.toNat - 48)
  else if 'a' ≤ c && c ≤ 'f' then some (c.toNat - 87)
  else if 'A' ≤ c && c ≤ 'F' then some (c.toNat - 55)
  else none

/-- Parse the body of a JSON string after the opening quote; returns the
decoded characters and the remainder after the closing quote. -/
def parseStringBody : Nat → List Char → Option (List Char × List Char)
  | 0, _ => none
  | _ + 1, [] => none
  | fuel + 1, c :: cs =>
    if c = dq then some ([], cs)
    else if c = bsl then
      match cs with
      | [] => none
      | e :: cs' =>
        if e = dq || e = bsl || e = '/' then
          match parseStringBody fuel cs' with
          | some (body, rest) => some (e :: body, rest)
          | none => none
        else if e = 'n' || e = 't' || e = 'r' || e = 'b' || e = 'f' then
          let d : Char :=
            if e = 'n' then '\n' else if e = 't' then '\t'
            else if e = 'r' then '\r' else if e = 'b' then Char.ofNat 8
            else Char.ofNat 12
          match parseStringBody fuel cs' with
          | some (body, rest) => some (d :: body, rest)
          | none => none
        else if e = 'u' then
          match cs' with
          | h1 :: h2 :: h3 :: h4 :: cs'' =>
            match hexVal h1, hexVal h2, hexVal h3, hexVal h4 with
            | some a, some b, some c3, some d4 =>
              match parseStringBody fuel cs'' with
              | some (body, rest) =>
                some (Char.ofNat (a * 4096 + b * 256 + c3 * 16 + d4) :: body, rest)
              | none => none
            | _, _, _, _ => none
          | _ => none
        else none
    else if c.toNat < 32 then none
    else
      match parseStringBody fuel cs with
      | some (body, rest) => some (c :: body, rest)
      | none => none

/-- Parse a JSON integer literal (fractional/exponent forms are rejected,
see `Json`). -/
def parseNum (cs : List Char) : Option (Int × List Char) :=
  let (negSign, cs1) :=
    match cs with
    | '-' :: rest => (true, rest)
    | _ => (false, cs)
  let digits := cs1.takeWhile Char.isDigit
  let rest := cs1.dropWhile Char.isDigit
  if digits.isEmpty then none
  else if digits.length > 1 && digits.headD '0' = '0' then none
  else
    match rest with
    | '.' :: _ => none
    | 'e' :: _ => none
    | 'E' :: _ => none
    | _ =>
      let n : Nat := digits.foldl (fun acc c => acc * 10 + (c.toNat - 48)) 0
      some (if negSign then -(n : Int) else (n : Int), rest)

mutual

/-- Parse one JSON value. -/
def parseVal : Nat → List Char → Option (Json × List Char)
  | 0, _ => none
  | fuel + 1, cs =>
    let cs := skipWs cs
    match cs with
    | [] => none
    | c :: rest =>
      if c = dq then
        match parseStringBody fuel rest with
        | some (body, r) => some (.str ⟨body⟩, r)
        | none => none
      else if c = lcb then parseMembers fuel rest true []
      else if c = '[' then parseItems fuel rest true []
      else if ("null".data).isPrefixOf cs then some (.null, cs.drop 4)
      else if ("true".data).isPrefixOf cs then some (.bool true, cs.drop 4)
      else if ("false".data).isPrefixOf cs then some (.bool false, cs.drop 5)
      else
        match parseNum cs with
        | some (n, r) => some (.num n, r)
        | none => none

/-- Parse array items after `[`; `first` marks that no item was read yet. -/
def parseItems : Nat → List Char → Bool → List Json → Option (Json × List Char)
  | 0, _, _, _ => none
  | fuel + 1, cs, first, acc =>
    let cs := skipWs cs
    match cs with
    | [] => none
    | c :: rest =>
      if c = ']' && first then some (.arr [], rest)
      else
        match parseVal fuel cs with
        | none => none
        | some (v, r) =>
          let r := skipWs r
          match r with
          | ',' :: r' => parseItems fuel r' false (acc ++ [v])
          | ']' :: r' => some (.arr (acc ++ [v]), r')
          | _ => none

/-- Parse object members after the opening brace; duplicate keys are
collapsed with Python `dict` later-wins semantics. -/
def parseMembers : Nat → List Char → Bool → List (String × Json) → Option (Json × List Char)
  | 0, _, _, _ => none
  | fuel + 1, cs, first, acc =>
    let cs := skipWs cs
    match cs with
    | [] => none
    | c :: rest =>
      if c = rcb && first then some (.obj [], rest)
      else if c = dq then
        match parseStringBody fuel rest with
        | none => none
        | some (keyChars, r1) =>
          let r1 := skipWs r1
          match r1 with
          | ':' :: r2 =>
            match parseVal fuel r2 with
            | none => none
            | some (v, r3) =>
              let acc := setKV acc ⟨keyChars⟩ v
              let r3 := skipWs r3
              match r3 with
              | ',' :: r4 => parseMembers fuel r4 false acc
              | d :: r4 => if d = rcb then some (.obj acc, r4) else none
              | [] => none
          | _ => none
      else none

end

/-- `json.loads`: parse a whole string; trailing non-whitespace is an
error. -/
def Json.parse (s : String) : Option Json :=
  match parseVal (2 * s.data.length + 4) s.data with
  | some (v, rest) => if skipWs rest = [] then some v else none
  | none => none

/-! ### `_clean_response_content` (lines 120-140) -/

/-- The literal opening a ```json fenced block. -/
def jsonTagL : List Char := "```json".data

/-- The fence literal. -/
def fenceL : List Char := "```".data

/-- Model of `re.search(tag + r'\s*(.*?)\s*```', content, re.DOTALL)` for a
literal `tag`: the match runs from the first occurrence of `tag` to the
first subsequent fence, and `group(1)` with its `\s*` padding removed is
the stripped text in between (the caller additionally applies `.strip()`,
which this absorbs). -/
def fenceExtract (tag t : List Char) : Option (List Char) :=
  match splitFirst tag t with
  | none => none
  | some (_, rest) =>
    match splitFirst fenceL rest with
    | none => none
    | some (mid, _) => some (stripL mid)

/-- Non-brace character (the regex class `[^{}]`). -/
def notBrace (c : Char) : Bool := c ≠ lcb && c ≠ rcb

/-- Scanner for the pattern `\{[^{}]*(?:\{[^{}]*\}[^{}]*)*\}` after the
opening brace: skip non-braces; a close at depth 0 ends the match, an
open goes one level down where only a matching close may follow (a second
open makes the whole match fail, as the regex cannot express depth 3).
Returns the total matched length (`n` counts what was consumed so far,
including the opening brace). -/
def braceScanAux : Nat → List Char → Nat → Option Nat
  | 0, _, _ => none
  | fuel + 1, cs, n =>
    let sk := cs.takeWhile notBrace
    let rest := cs.dropWhile notBrace
    match rest with
    | [] => none
    | c :: cs' =>
      if c = rcb then some (n + sk.length + 1)
      else
        let sk2 := cs'.takeWhile notBrace
        let rest2 := cs'.dropWhile notBrace
        match rest2 with
        | [] => none
        | d :: cs'' =>
          if d = rcb then
            braceScanAux fuel cs'' (n + sk.length + 1 + sk2.length + 1)
          else none

/-- Leftmost match of the brace pattern: try a scan at each `{`. -/
def braceSearch : List Char → Option (List Char)
  | [] => none
  | c :: cs =>
    if c = lcb then
      match braceScanAux (cs.length + 1) cs 1 with
      | some len => some ((c :: cs).take len)
      | none => braceSearch cs
    else braceSearch cs

/-- Third stage of `_clean_response_content`: first balanced-looking brace
substring, stripped; otherwise the stripped input. -/
def cleanBrace (t : List Char) : List Char :=
  match braceSearch t with
  | some m => stripL m
  | none => stripL t

/-- Second stage: any fenced block. -/
def cleanFence (t : List Char) : List Char :=
  if containsSub t fenceL then
    match fenceExtract fenceL t with
    | some m => m
    | none => cleanBrace t
  else cleanBrace t

/-- First stage: a ```json fenced block. -/
def cleanList (t : List Char) : List Char :=
  if containsSub t jsonTagL then
    match fenceExtract jsonTagL t with
    | some m => m
    | none => cleanFence t
  else cleanFence t

/-- `_clean_response_content` (lines 120-140). -/
def clean_response_content (s : String) : String := ⟨cleanList s.data⟩

/-! ### JSON recovery patterns (lines 216-235) -/

/-- `re.sub(r"(\w+):", r'"\1":', s)`: wrap every maximal word run that is
immediately followed by a colon in double quotes. -/
def keyQuoteAux : Nat → List Char → List Char
  | 0, cs => cs
  | _ + 1, [] => []
  | fuel + 1, c :: cs =>
    if wordChar c then
      let run := (c :: cs).takeWhile wordChar
      let rest := (c :: cs).dropWhile wordChar
      match rest with
      | ':' :: rest' => dq :: (run ++ dq :: ':' :: keyQuoteAux fuel rest')
      | _ => run ++ keyQuoteAux fuel rest
    else c :: keyQuoteAux fuel cs

/-- The "light repair" applied to a pattern match before the parse retry:
replace single quotes by double quotes, then quote bareword keys. -/
def repairJson (cs : List Char) : List Char :=
  keyQuoteAux (cs.length + 1) (cs.map fun c => if c = apo then dq else c)

/-- Attempt one recovery pattern: repair the matched text and re-parse. -/
def tryPattern (m : Option (List Char)) : Option Json :=
  match m with
  | none => none
  | some s => Json.parse ⟨repairJson s⟩

/-- A JSON key literal together with its quotes. -/
def quotedLit (s : String) : List Char := dq :: (s.data ++ [dq])

/-- Matcher for `\{.*?"<lit>".*?\}` (DOTALL, IGNORECASE) at one start
position: an opening brace, the first occurrence of the quoted literal
after it, and the first closing brace after that. -/
def matchBraceLitAt (lit : List Char) : List Char → Option (List Char)
  | [] => none
  | c :: cs =>
    if c = lcb then
      match splitFirstCI lit cs with
      | none => none
      | some (a, m, b) =>
        match splitFirst [rcb] b with
        | none => none
        | some (mid, _) => some (c :: (a ++ m ++ mid ++ [rcb]))
    else none

/-- The key literals of the "complete JSON structure" pattern. -/
def p4Lits : List (List Char) :=
  [quotedLit "framework_name", quotedLit "has_update",
   quotedLit "latest_update_date", quotedLit "document_url"]

/-- The literals occur in order (case-insensitively), scanning left to
right. -/
def inOrderCI : List (List Char) → List Char → Bool
  | [], _ => true
  | l :: ls, cs =>
    match splitFirstCI l cs with
    | some (_, _, b) => inOrderCI ls b
    | none => false

/-- Matcher for
`\{[^}]*"framework_name"[^}]*"has_update"[^}]*"latest_update_date"[^}]*"document_url"[^}]*\}`:
all four keys must appear in order before the first closing brace. -/
def matchP4At : List Char → Option (List Char)
  | [] => none
  | c :: cs =>
    if c = lcb then
      let window := cs.takeWhile (· ≠ rcb)
      let rest := cs.dropWhile (· ≠ rcb)
      if ¬ rest.isEmpty && inOrderCI p4Lits window then
        some (c :: (window ++ [rcb]))
      else none
    else none

/-- The ordered JSON extraction strategies of lines 216-235, each applied
to the raw response text with repair before a parse retry. -/
def tryJsonPatterns (cs : List Char) : Option Json :=
  match tryPattern (braceSearch cs) with
  | some v => some v
  | none =>
  match tryPattern (searchAt (matchBraceLitAt (quotedLit "has_update")) cs) with
  | some v => some v
  | none =>
  match tryPattern (searchAt (matchBraceLitAt (quotedLit "document_url")) cs) with
  | some v => some v
  | none => tryPattern (searchAt matchP4At cs)

/-! ### `datetime.strptime` date parsing -/

/-- Value of a decimal digit character. -/
def digitVal (c : Char) : Nat := c.toNat - 48

/-- `%Y`: exactly four digits. -/
def year4 : List Char → Option (Nat × List Char)
  | a :: b :: c :: d :: rest =>
    if a.isDigit && b.isDigit && c.isDigit && d.isDigit then
      some (digitVal a * 1000 + digitVal b * 100 + digitVal c * 10 + digitVal d, rest)
    else none
  | _ => none

/-- `%m` alternatives in regex order: `1[0-2] | 0[1-9] | [1-9]`. -/
def monthCands (cs : List Char) : List (Nat × List Char) :=
  let c1 := match cs with
    | '1' :: c :: rest => if '0' ≤ c && c ≤ '2' then [(10 + digitVal c, rest)] else []
    | _ => []
  let c2 := match cs with
    | '0' :: c :: rest => if '1' ≤ c && c ≤ '9' then [(digitVal c, rest)] else []
    | _ => []
  let c3 := match cs with
    | c :: rest => if '1' ≤ c && c ≤ '9' then [(digitVal c, rest)] else []
    | _ => []
  c1 ++ c2 ++ c3

/-- `%d` alternatives in regex order: `3[01] | [12]\d | 0[1-9] | [1-9]`. -/
def dayCands (cs : List Char) : List (Nat × List Char) :=
  let c1 := match cs with
    | '3' :: c :: rest => if c = '0' || c = '1' then [(30 + digitVal c, rest)] else []
    | _ => []
  let c2 := match cs with
    | a :: c :: rest =>
      if (a = '1' || a = '2') && c.isDigit then [(digitVal a * 10 + digitVal c, rest)] else []
    | _ => []
  let c3 := match cs with
    | '0' :: c :: rest => if '1' ≤ c && c ≤ '9' then [(digitVal c, rest)] else []
    | _ => []
  let c4 := match cs with
    | c :: rest => if '1' ≤ c && c ≤ '9' then [(digitVal c, rest)] else []
    | _ => []
  c1 ++ c2 ++ c3 ++ c4

/-- Gregorian leap year. -/
def isLeap (y : Nat) : Bool := y % 4 = 0 && (y % 100 ≠ 0 || y % 400 = 0)

/-- Days in a month. -/
def daysInMonth (y m : Nat) : Nat :=
  if m = 2 then (if isLeap y then 29 else 28)
  else if m = 4 || m = 6 || m = 9 || m = 11 then 30
  else 31

/-- `datetime` construction succeeds: year at least `MINYEAR` and the day
in range for the month. -/
def validYMD (y m d : Nat) : Bool := 1 ≤ y && d ≤ daysInMonth y m

/-- Dates compare by value; the encoding is monotone in (y, m, d). -/
def encodeDate (y m d : Nat) : Nat := y * 10000 + m * 100 + d

/-- `strptime(s, "%Y<sep>%m<sep>%d")`: the month alternative backtracks
against its following separator and the availability of a day; the day is
the final regex element, so its first locally matching alternative wins;
leftover input and calendar validity are checked afterwards and do not
re-enter the regex. -/
def parseYMDsep (sep : Char) (cs : List Char) : Option Nat :=
  match year4 cs with
  | some (y, s1 :: r2) =>
    if s1 = sep then
      match (monthCands r2).findSome? (fun p =>
        match p.2 with
        | s2 :: r4 =>
          if s2 = sep then
            match (dayCands r4).head? with
            | some q => some (p.1, q)
            | none => none
          else none
        | [] => none) with
      | some (m, d, r5) =>
        if r5.isEmpty && validYMD y m d then some (encodeDate y m d) else none
      | none => none
    else none
  | _ => none

/-- `strptime(s, "%m<sep>%d<sep>%Y")`. -/
def parseMDYsep (sep : Char) (cs : List Char) : Option Nat :=
  match (monthCands cs).findSome? (fun p =>
    match p.2 with
    | s1 :: r2 =>
      if s1 = sep then
        (dayCands r2).findSome? (fun q =>
          match q.2 with
          | s2 :: r3 =>
            if s2 = sep then
              match year4 r3 with
              | some (y, r4) => some (p.1, q.1, y, r4)
              | none => none
            else none
          | [] => none)
      else none
    | [] => none) with
  | some (m, d, y, r4) =>
    if r4.isEmpty && validYMD y m d then some (encodeDate y m d) else none
  | none => none

/-- The source's `date_formats` loop:
`["%Y-%m-%d", "%Y/%m/%d", "%m-%d-%Y", "%m/%d/%Y"]`, first success wins. -/
def parseAnyFormat (cs : List Char) : Option Nat :=
  match parseYMDsep '-' cs with
  | some d => some d
  | none =>
  match parseYMDsep '/' cs with
  | some d => some d
  | none =>
  match parseMDYsep '-' cs with
  | some d => some d
  | none => parseMDYsep '/' cs

/-- `datetime.strptime(s, "%Y-%m-%d")` as used for the baseline date. -/
def parseYMD (cs : List Char) : Option Nat := parseYMDsep '-' cs

/-! ### Heuristic text-scan fallback (lines 241-394) -/

/-- The regex class `[^\s<>"{}|\\^`\[\]]` used by the URL patterns. -/
def urlChar (c : Char) : Bool :=
  !(pySpace c || c = '<' || c = '>' || c = dq || c = lcb || c = rcb ||
    c = '|' || c = bsl || c = '^' || c = tick || c = '[' || c = ']')

/-- Match `https?://` (`ci` selects case-insensitive matching); the `s?`
is greedy.  Returns (consumed, rest). -/
def matchHttp (ci : Bool) (cs : List Char) : Option (List Char × List Char) :=
  let pre : List Char → List Char → Bool := fun lit xs =>
    if ci then isPreCI lit xs else lit.isPrefixOf xs
  if pre "http".data cs then
    let r1 := cs.drop 4
    let withS :=
      match r1 with
      | c :: rest =>
        if (if ci then eqCI c 's' else c = 's') && pre "://".data rest then
          some (cs.take 8, rest.drop 3)
        else none
      | [] => none
    match withS with
    | some p => some p
    | none => if pre "://".data r1 then some (cs.take 7, r1.drop 3) else none
  else none

/-- Index of the last occurrence of `pat` (fully contained). -/
def lastOcc (ci : Bool) (pat : List Char) : List Char → Option Nat
  | [] => none
  | c :: cs =>
    match lastOcc ci pat cs with
    | some j => some (j + 1)
    | none =>
      if (if ci then isPreCI pat (c :: cs) else pat.isPrefixOf (c :: cs)) then some 0
      else none

/-- Index of the first occurrence of `pat` (fully contained). -/
def firstOcc (ci : Bool) (pat cs : List Char) : Option Nat :=
  if ci then
    match splitFirstCI pat cs with
    | some (a, _, _) => some a.length
    | none => none
  else
    match splitFirst pat cs with
    | some (a, _) => some a.length
    | none => none

/-- Matcher for `https?://[^\s<>"{}|\\^`\[\]]+\.pdf`: the greedy class run
backtracks so `\.pdf` matches at the last `.pdf` inside the run, which
needs at least one class character before it. -/
def matchU1At (ci : Bool) (cs : List Char) : Option (List Char) :=
  match matchHttp ci cs with
  | none => none
  | some (pre, rest) =>
    let run := rest.takeWhile urlChar
    match lastOcc ci ".pdf".data run with
    | some j => if 1 ≤ j then some (pre ++ run.take (j + 4)) else none
    | none => none

/-- Matcher for `https?://[^\s...]+\.pdf[^\s...]*`: with the greedy tail
the match covers the whole class run whenever some `.pdf` occurs in it. -/
def matchU2At (ci : Bool) (cs : List Char) : Option (List Char) :=
  match matchHttp ci cs with
  | none => none
  | some (pre, rest) =>
    let run := rest.takeWhile urlChar
    match lastOcc ci ".pdf".data run with
    | some j => if 1 ≤ j then some (pre ++ run) else none
    | none => none

/-- Matcher for `https?://[^\s...]+download[^\s...]*\.pdf`: ends at the
last `.pdf` that still has a `download` (itself preceded by a class
character) sufficiently before it. -/
def matchU3At (ci : Bool) (cs : List Char) : Option (List Char) :=
  match matchHttp ci cs with
  | none => none
  | some (pre, rest) =>
    let run := rest.takeWhile urlChar
    match firstOcc ci "download".data (run.drop 1) with
    | none => none
    | some j0 =>
      let base := j0 + 1 + 8
      match lastOcc ci ".pdf".data (run.drop base) with
      | some k => some (pre ++ run.take (base + k + 4))
      | none => none

/-- Matcher for `https?://[^\s...]+pdf[^\s...]*`: the whole class run,
whenever `pdf` occurs after at least one class character. -/
def matchU4At (ci : Bool) (cs : List Char) : Option (List Char) :=
  match matchHttp ci cs with
  | none => none
  | some (pre, rest) =>
    let run := rest.takeWhile urlChar
    if (firstOcc ci "pdf".data (run.drop 1)).isSome then some (pre ++ run) else none

/-- `re.sub(r'[.,;:!?)\]]+$', '', url)`. -/
def stripTrailingPunct (cs : List Char) : List Char :=
  (cs.reverse.dropWhile fun c =>
    c = '.' || c = ',' || c = ';' || c = ':' || c = '!' || c = '?' || c = ')' || c = ']').reverse

/-- The URL extraction loop (lines 259-273): first pattern with a match
wins; the matched text is stripped and trailing punctuation removed. -/
def heurFindUrl (cs : List Char) : Option (List Char) :=
  match searchAt (matchU1At true) cs with
  | some u => some (stripTrailingPunct (stripL u))
  | none =>
  match searchAt (matchU2At true) cs with
  | some u => some (stripTrailingPunct (stripL u))
  | none =>
  match searchAt (matchU3At true) cs with
  | some u => some (stripTrailingPunct (stripL u))
  | none =>
  match searchAt (matchU4At true) cs with
  | some u => some (stripTrailingPunct (stripL u))
  | none => none

/-- The character after a match is a word boundary. -/
def bdry : List Char → Bool
  | [] => true
  | c :: _ => ¬ wordChar c

/-- The separator class: dash or slash. -/
def sepDash (c : Char) : Bool := c = '-' || c = '/'

/-- `\d{1,2}` then a dash-or-slash separator (greedy, the alternatives are mutually exclusive).
Returns (consumed including separator, rest). -/
def grab12sep : List Char → Option (List Char × List Char)
  | c :: d :: s :: r =>
    if c.isDigit && d.isDigit && sepDash s then some ([c, d, s], r)
    else if c.isDigit && sepDash d then some ([c, d], s :: r)
    else none
  | [c, d] => if c.isDigit && sepDash d then some ([c, d], []) else none
  | _ => none

/-- `\d{1,2}\b` (greedy). -/
def grab12bdry : List Char → Option (List Char × List Char)
  | c :: d :: r =>
    if c.isDigit && d.isDigit && bdry r then some ([c, d], r)
    else if c.isDigit && ¬ wordChar d then some ([c], d :: r)
    else none
  | [c] => if c.isDigit then some ([c], []) else none
  | [] => none

/-- Matcher for the first date pattern (`20` year, separator, 1-2 digit month, separator, 1-2 digit day, with word boundaries). -/
def matchD1At (prevW : Bool) (cs : List Char) : Option (List Char) :=
  if prevW then none else
  match cs with
  | '2' :: '0' :: a :: b :: s1 :: rest =>
    if a.isDigit && b.isDigit && sepDash s1 then
      match grab12sep rest with
      | some (m1, r1) =>
        match grab12bdry r1 with
        | some (m2, _) => some ('2' :: '0' :: a :: b :: s1 :: (m1 ++ m2))
        | none => none
      | none => none
    else none
  | _ => none

/-- Matcher for the second date pattern (1-2 digit month, separator, 1-2 digit day, separator, `20` year, with word boundaries). -/
def matchD2At (prevW : Bool) (cs : List Char) : Option (List Char) :=
  if prevW then none else
  match grab12sep cs with
  | some (m1, r1) =>
    match grab12sep r1 with
    | some (m2, r2) =>
      match r2 with
      | '2' :: '0' :: a :: b :: r3 =>
        if a.isDigit && b.isDigit && bdry r3 then some (m1 ++ m2 ++ ['2', '0', a, b])
        else none
      | _ => none
    | none => none
  | none => none

/-- Capitalised month names, in the order of the regex alternation. -/
def monthsCap : List (List Char) :=
  ["January".data, "February".data, "March".data, "April".data, "May".data,
   "June".data, "July".data, "August".data, "September".data, "October".data,
   "November".data, "December".data]

/-- Case-insensitive month alternation; no month name is a prefix of
another, so at most one alternative matches at a position. -/
def matchMonthCI (cs : List Char) : Option (List Char × List Char) :=
  monthsCap.findSome? fun m =>
    if isPreCI m cs then some (cs.take m.length, cs.drop m.length) else none

/-- `,?\s+20\d{2}\b` after the day digits (the optional comma is tried
first). -/
def tailD3 (r : List Char) : Option (List Char) :=
  let attempt : List Char → List Char → Option (List Char) := fun r' pre =>
    let ws := r'.takeWhile pySpace
    let rr := r'.dropWhile pySpace
    if ws.isEmpty then none else
    match rr with
    | '2' :: '0' :: a :: b :: r3 =>
      if a.isDigit && b.isDigit && bdry r3 then some (pre ++ ws ++ ['2', '0', a, b])
      else none
    | _ => none
  match r with
  | ',' :: r' =>
    match attempt r' [','] with
    | some t => some t
    | none => attempt r []
  | _ => attempt r []

/-- Matcher for
`\b(January|...|December)\s+\d{1,2},?\s+20\d{2}\b` (IGNORECASE). -/
def matchD3At (prevW : Bool) (cs : List Char) : Option (List Char) :=
  if prevW then none else
  match matchMonthCI cs with
  | none => none
  | some (mm, r1) =>
    let ws1 := r1.takeWhile pySpace
    let r2 := r1.dropWhile pySpace
    if ws1.isEmpty then none else
    match r2 with
    | c :: d :: r3 =>
      if c.isDigit && d.isDigit then
        match tailD3 r3 with
        | some t => some (mm ++ ws1 ++ [c, d] ++ t)
        | none =>
          match tailD3 (d :: r3) with
          | some t => some (mm ++ ws1 ++ [c] ++ t)
          | none => none
      else if c.isDigit then
        match tailD3 (d :: r3) with
        | some t => some (mm ++ ws1 ++ [c] ++ t)
        | none => none
      else none
    | [c] =>
      if c.isDigit then none else none
    | [] => none

/-- Matcher for `\b(20\d{2})\b`. -/
def matchD4At (prevW : Bool) (cs : List Char) : Option (List Char) :=
  if prevW then none else
  match cs with
  | '2' :: '0' :: a :: b :: r =>
    if a.isDigit && b.isDigit && bdry r then some ['2', '0', a, b] else none
  | _ => none

/-- `str.replace('/', '-')`. -/
def slashToDash (cs : List Char) : List Char :=
  cs.map fun c => if c = '/' then '-' else c

/-- `str.zfill(2)` for the day capture. -/
def zfill2 (cs : List Char) : List Char := if cs.length = 1 then '0' :: cs else cs

/-- `month_map` of lines 304-308 (iterated in insertion order). -/
def monthMap : List (List Char × List Char) :=
  [("january".data, "01".data), ("february".data, "02".data),
   ("march".data, "03".data), ("april".data, "04".data),
   ("may".data, "05".data), ("june".data, "06".data),
   ("july".data, "07".data), ("august".data, "08".data),
   ("september".data, "09".data), ("october".data, "10".data),
   ("november".data, "11".data), ("december".data, "12".data)]

/-- `re.search(r'20\d{2}', date_str)` (no word boundaries). -/
def searchYear : List Char → Option (List Char) :=
  searchAt fun cs =>
    match cs with
    | '2' :: '0' :: a :: b :: _ => if a.isDigit && b.isDigit then some ['2', '0', a, b] else none
    | _ => none

/-- `re.search(r'\b(\d{1,2})\b', date_str)`. -/
def searchDayNum (cs : List Char) : Option (List Char) :=
  searchB (fun prevW cs =>
    if prevW then none else
    match cs with
    | c :: d :: r =>
      if c.isDigit && d.isDigit && bdry r then some [c, d]
      else if c.isDigit && ¬ wordChar d then some [c]
      else none
    | [c] => if c.isDigit then some [c] else none
    | [] => none) false cs

/-- Normalisation of a scanned date string (lines 286-322): slash dates
are reordered to `YYYY-MM-DD`, dash dates pass through, and month-name
dates are rebuilt from the (case-sensitively capitalised) month, a
`20\d{2}` year and a standalone 1-2 digit day; anything else leaves the
date unset so the scan moves to the next pattern. -/
def normalizeScanDate (ds : List Char) : Option (List Char) :=
  if containsSub ds ['/'] then
    let parts := ds.splitOn '/'
    if parts.length = 3 then
      if (parts.headD []).length = 4 then some (slashToDash ds)
      else some ((parts.getD 2 []) ++ '-' :: (parts.getD 0 []) ++ '-' :: parts.getD 1 [])
    else none
  else if containsSub ds ['-'] then some ds
  else
    if monthsCap.any (fun m => containsSub ds m) then
      match monthMap.findSome? (fun p =>
          if containsSub (lowerL ds) p.1 then some p.2 else none) with
      | none => none
      | some mm =>
        match searchYear ds, searchDayNum ds with
        | some y, some d => some (y ++ '-' :: mm ++ '-' :: zfill2 d)
        | _, _ => none
    else none

/-- The date extraction loop (lines 276-322): four patterns in order; a
pattern whose match fails to normalise falls through to the next. -/
def dateScan (cs : List Char) : Option (List Char) :=
  match (searchB matchD1At false cs).bind normalizeScanDate with
  | some d => some d
  | none =>
  match (searchB matchD2At false cs).bind normalizeScanDate with
  | some d => some d
  | none =>
  match (searchB matchD3At false cs).bind normalizeScanDate with
  | some d => some d
  | none => (searchB matchD4At false cs).bind normalizeScanDate

/-- `strong_update_indicators` (lines 248-253), all lowercase. -/
def indicators : List (List Char) :=
  ["has been updated".data, "was updated".data, "latest update".data,
   "recent update".data, "new version".data, "new amendment".data,
   "latest amendment".data, "recent amendment".data, "updated on".data,
   "published on".data, "released on".data, "issued on".data,
   "version".data, "amendment".data, "update".data, "revision".data,
   "supplement".data]

/-- The default verdict synthesised from text analysis (lines 241-394).
A found PDF URL forces `has_update = True` (the date comparison on lines
334-356 only logs, apart from normalising slashes in the kept date);
otherwise a parseable scanned date decides by comparison with the
baseline (parse failures of either side fall back to the keyword
signal); otherwise the keyword signal decides. -/
def heuristicVerdict (content lastUpdated : String) : Json :=
  let cs := content.data
  let mention := indicators.any fun p => containsSub (lowerL cs) p
  let docUrl := heurFindUrl cs
  let scanned := dateScan cs
  let latestDate :=
    match scanned with
    | some d => some (slashToDash d)
    | none => none
  let hu : Bool :=
    match docUrl with
    | some _ => true
    | none =>
      match latestDate with
      | some d =>
        match parseAnyFormat d with
        | some dd =>
          match parseYMD lastUpdated.data with
          | some lk => decide (lk < dd)
          | none => mention
        | none => mention
      | none => mention
  Json.obj
    [("has_update", .bool hu),
     ("latest_update_date", .str (match latestDate with | some d => ⟨d⟩ | none => lastUpdated)),
     ("document_url", match docUrl with | some u => .str ⟨u⟩ | none => .null),
     ("version", .null),
     ("notes", .str ⟨cs.take 300⟩)]

/-! ### `query_perplexity_api` (lines 143-452) -/

/-- The terminal fallback verdict of lines 401-407. -/
def neutralVerdict (lastUpdated : String) : Json :=
  .obj [("has_update", .bool false),
        ("latest_update_date", .str lastUpdated),
        ("document_url", .null),
        ("version", .null),
        ("notes", .str "Failed to parse API response")]

/-- The three extraction tiers (lines 208-394): strict parse of the
cleaned response; on a parse error, the recovery patterns over the raw
text; and otherwise the heuristic text scan, which always yields a
verdict.  A strict parse that succeeds with a falsy value (e.g. `null`,
`false`, `[]`) skips the other tiers, exactly as in the source where they
live inside the `except json.JSONDecodeError` handler. -/
def extractParsed (content lastUpdated : String) : Json :=
  match Json.parse (clean_response_content content) with
  | some v => v
  | none =>
    match tryJsonPatterns content.data with
    | some v => v
    | none => heuristicVerdict content lastUpdated

/-- The logging f-string of line 397 evaluates `parsed.get` three times;
on a truthy non-dict this is where the `AttributeError` is raised. -/
def ensureDictGets (p : Json) : Except PyErr Unit := do
  let _ ← jsonGetE p "has_update"
  let _ ← jsonGetE p "latest_update_date"
  let _ ← jsonGetE p "document_url"
  pure ()

/-- The date-validation (reconciliation) step, lines 409-441.  It runs
only when both `has_update` and `latest_update_date` are truthy.  A
claimed date that parses in one of the four formats is compared with the
baseline: when it is not after the baseline and no `document_url` is
present, `has_update` is forced to `False`; with a `document_url` it is
kept.  A claimed date string that parses in none of the formats leaves
the verdict unchanged (each failed `strptime` is swallowed by the inner
`except ValueError`).  The outer `except (ValueError, AttributeError)`
fires when the baseline itself fails `strptime`; a non-string claimed
date raises `TypeError`, which is not caught. -/
def validateDates (parsed : Json) (lastUpdated : String) : Except PyErr Json := do
  let hu ← jsonGetE parsed "has_update"
  let lud ← jsonGetE parsed "latest_update_date"
  if truthyO hu && truthyO lud then
    match lud with
    | some (Json.str s) =>
      match parseAnyFormat s.data with
      | some d =>
        match parseYMD lastUpdated.data with
        | some lk =>
          let durl ← jsonGetE parsed "document_url"
          if d ≤ lk && ¬ truthyO durl then
            pure (jsonSetTop parsed "has_update" (.bool false))
          else pure parsed
        | none =>
          let durl ← jsonGetE parsed "document_url"
          if ¬ truthyO durl then pure (jsonSetTop parsed "has_update" (.bool false))
          else pure parsed
      | none => pure parsed
    | some _ => throw .typeError
    | none => pure parsed
  else pure parsed

/-- The `document_url` validation of lines 442-450: it only logs, but
calling `.lower()` on a truthy non-string raises `AttributeError`. -/
def checkDocUrl (parsed : Json) : Except PyErr Unit := do
  let durl ← jsonGetE parsed "document_url"
  if truthyO durl then
    match durl with
    | some (Json.str _) => pure ()
    | _ => throw .attributeError
  else pure ()

/-- `query_perplexity_api` (lines 143-452).  `apiResp` is the outcome of
the HTTP POST, `raise_for_status` and response-field extraction; its
errors propagate.  An empty API key raises `ValueError` up front. -/
def query_perplexity_api (hasKey : Bool) (lastUpdated : String)
    (apiResp : Except PyErr String) : Except PyErr Json :=
  if ¬ hasKey then .error .valueError else
  match apiResp with
  | .error e => .error e
  | .ok content =>
    let p0 := extractParsed content lastUpdated
    let p1 := if truthy p0 then p0 else neutralVerdict lastUpdated
    do
      if truthy p0 then ensureDictGets p0 else pure ()
      let p2 ← validateDates p1 lastUpdated
      checkDocUrl p2
      pure p2

/-! ### `find_actual_pdf_url` (lines 455-526) -/

/-- `s.lower().endswith('.pdf')`. -/
def endsPdfCI (s : String) : Bool := ".pdf".data.isSuffixOf (lowerL s.data)

/-- `find_actual_pdf_url` (lines 455-526).  `apiResp` is the outcome of
the second model query (HTTP POST, `raise_for_status`, field access);
every exception is swallowed and yields `None`.  On success the response
is stripped; unless empty, the sentinel `NOT_FOUND`, or lacking `.pdf`
case-insensitively, the first case-sensitive `https?://...\.pdf` token is
extracted (`re.findall(...)[0]`). -/
def find_actual_pdf_url (apiResp : Except PyErr String) : Option String :=
  match apiResp with
  | .error _ => none
  | .ok content =>
    let p := stripL content.data
    if ¬ p.isEmpty && p ≠ "NOT_FOUND".data && containsSub (lowerL p) ".pdf".data then
      if containsSub p "http".data then
        match searchAt (matchU1At false) p with
        | some u => some ⟨u⟩
        | none => none
      else none
    else none

/-! ### `download_document` (lines 529-804) -/

/-- Outcome of one `_attempt_download` call (the inner 403 header-retry
is folded into the reported outcome). -/
inductive AttemptOutcome where
  | success (body : List Nat) (contentType : String)
  | httpFail (status : Nat)
  | reqFail
  | otherFail

/-- Outcome of the S3 upload of lines 739-777: a success record, a
returned failure, or a raised exception (both failure forms fall back to
the local path). -/
inductive S3Outcome where
  | uploadOk (url key storedName : String)
  | uploadFail
  | uploadRaise

/-- Environment of a download: the outcome of each successive HTTP
attempt, the result of each successive `find_actual_pdf_url` call, and
the S3 upload outcome. -/
structure DlEnv where
  attempts : Nat → AttemptOutcome
  resolve : Nat → Option String
  s3 : S3Outcome

/-- Result of a successful download: local path with S3 information, or
local path only when the upload did not succeed. -/
inductive DlResult where
  | withS3 (localPath s3url s3key storedName : String)
  | localOnly (path : String)

/-- The download directory as a set of named files. -/
structure DlState where
  files : List (String × List Nat)

/-- Write a file. -/
def addFile (st : DlState) (n : String) (b : List Nat) : DlState :=
  ⟨st.files ++ [(n, b)]⟩

/-- `os.remove`. -/
def removeFile (st : DlState) (n : String) : DlState :=
  ⟨st.files.filter fun p => p.1 ≠ n⟩

/-- The names present in the directory. -/
def fileNames (st : DlState) : List String := st.files.map Prod.fst

/-- `safe_name` of line 683. -/
def safeName (s : String) : String :=
  ⟨s.data.map fun c => if c = ' ' || c = '/' || c = bsl then '_' else c⟩

/-- The temporary download path of line 685. -/
def tempName (dir fw ts : String) : String :=
  dir ++ "/" ++ safeName fw ++ "_" ++ ts ++ ".tmp"

/-- The permanent path of lines 732-733. -/
def pdfFinalName (dir fw ts : String) : String :=
  dir ++ "/" ++ safeName fw ++ "_" ++ ts ++ ".pdf"

/-- The `%PDF` magic signature. -/
def pdfMagic : List Nat := [37, 80, 68, 70]

/-- `MAX_AMENDMENT_SIZE_MB` in bytes; `downloaded / (1024*1024) > 15` is
exact for binary floats (division by a power of two), hence equivalent to
this byte bound. -/
def maxBytes : Nat := 15 * 1024 * 1024

/-- Post-download validation and finalisation (lines 678-777): write the
body to the temporary file; delete it and report unavailable unless the
first four bytes are the magic signature; delete it and report
unavailable when the size exceeds the ceiling; only then rename to the
permanent `.pdf` name and attempt the S3 upload (whose failure degrades
to the local path). -/
def processResponse (fw ts dir : String) (body : List Nat) (contentType : String)
    (s3 : S3Outcome) (st : DlState) : Option DlResult × DlState :=
  let tn := tempName dir fw ts
  let st1 := addFile st tn body
  if body.take 4 ≠ pdfMagic then (none, removeFile st1 tn)
  else if maxBytes < body.length then (none, removeFile st1 tn)
  else
    let pn := pdfFinalName dir fw ts
    let st2 := addFile (removeFile st1 tn) pn body
    match s3 with
    | .uploadOk url key stored => (some (.withS3 pn url key stored), st2)
    | .uploadFail => (some (.localOnly pn), st2)
    | .uploadRaise => (some (.localOnly pn), st2)

/-- The retry loop of lines 628-676.  `fuel` starts at `max_retries = 3`
and tracks `3 - retry_count`; when it reaches zero the loop has exited
with `response is None` and line 679 raises `AttributeError` on `None`.
A 403 within the retry budget consults the resolver for an alternate
`.pdf` URL; other HTTP errors, request errors and unexpected errors
retry until the budget is exhausted and then re-raise. -/
def dlLoop (attempts : Nat → AttemptOutcome) (resolve : Nat → Option String)
    (hasKey : Bool) : Nat → String → Nat → Nat → Nat → Except PyErr (List Nat × String)
  | 0, _, _, _, _ => .error .attributeError
  | fuel + 1, urlToFetch, retryCount, aIdx, rIdx =>
    match attempts aIdx with
    | .success body ct => .ok (body, ct)
    | .httpFail status =>
      if status = 403 && hasKey && retryCount < 2 then
        match resolve rIdx with
        | some alt =>
          if endsPdfCI alt && alt ≠ urlToFetch then
            dlLoop attempts resolve hasKey fuel alt (retryCount + 1) (aIdx + 1) (rIdx + 1)
          else
            dlLoop attempts resolve hasKey fuel urlToFetch (retryCount + 1) (aIdx + 1) (rIdx + 1)
        | none =>
          dlLoop attempts resolve hasKey fuel urlToFetch (retryCount + 1) (aIdx + 1) (rIdx + 1)
      else if 2 ≤ retryCount then .error (.httpStatusError status)
      else dlLoop attempts resolve hasKey fuel urlToFetch (retryCount + 1) (aIdx + 1) rIdx
    | .reqFail =>
      if 2 ≤ retryCount then .error .requestError
      else dlLoop attempts resolve hasKey fuel urlToFetch (retryCount + 1) (aIdx + 1) rIdx
    | .otherFail =>
      if 2 ≤ retryCount then .error .otherError
      else dlLoop attempts resolve hasKey fuel urlToFetch (retryCount + 1) (aIdx + 1) rIdx

/-- `download_document` (lines 529-804).  The outer try/except turns
every raised error into `None`; no exception escapes.  A URL that does
not end in `.pdf` is first re-resolved (consuming `resolve 0`), failing
which the document is reported unavailable. -/
def download_document (fw ts docUrl dir : String) (hasKey storeInMedia : Bool)
    (mediaRoot : String) (env : DlEnv) (st : DlState) : Option DlResult × DlState :=
  if docUrl = "" then (none, st) else
  let dir := if storeInMedia then mediaRoot ++ "/change_management" else dir
  let urlAndIdx : Option String × Nat :=
    if ¬ endsPdfCI docUrl then
      if hasKey then
        match env.resolve 0 with
        | some u => if endsPdfCI u && u ≠ "NOT_FOUND" then (some u, 1) else (none, 1)
        | none => (none, 1)
      else (none, 0)
    else (some docUrl, 0)
  match urlAndIdx with
  | (none, _) => (none, st)
  | (some url0, rIdx0) =>
    match dlLoop env.attempts env.resolve hasKey 3 url0 0 0 rIdx0 with
    | .error _ => (none, st)
    | .ok (body, ct) => processResponse fw ts dir body ct env.s3 st

/-! ### `run_framework_update_check` (lines 807-926) -/

/-- Environment of one orchestrator invocation: outcome of the
Perplexity HTTP call, the timestamp used for file names, `MEDIA_ROOT`,
the download environment, and the outcome of the optional amendment
processing call. -/
structure Env where
  apiResp : Except PyErr String
  ts : String
  mediaRoot : String
  dl : DlEnv
  procOutcome : Except PyErr Json

/-- `run_framework_update_check` (lines 807-926).  The query stage is
not guarded: its exceptions propagate.  The download stage is wrapped in
`except Exception`, so any of its failures degrade to a null
`downloaded_path`.  The result spreads the verdict and adds
`downloaded_path`, the S3 fields when present, and the processing
outcome when requested. -/
def run_framework_update_check (fw lastUpdated : String) (hasKey : Bool)
    (downloadDir? : Option String) (fwId? : Option Nat)
    (processAmendment storeInMedia : Bool) (env : Env) (st : DlState) :
    Except PyErr (Json × DlState) := do
  let downloadFolder := downloadDir?.getD "downloads"
  let updateInfo ← query_perplexity_api hasKey lastUpdated env.apiResp
  let hu ← jsonGetE updateInfo "has_update"
  let du ← jsonGetE updateInfo "document_url"
  let dlOutcome : Option String × Option (String × String × String) × DlState :=
    if truthyO hu && truthyO du then
      match du with
      | some (Json.str u) =>
        let r := download_document fw env.ts u downloadFolder hasKey storeInMedia env.mediaRoot env.dl st
        match r.1 with
        | some (.withS3 p a b c) => (some p, some (a, b, c), r.2)
        | some (.localOnly p) => (some p, none, r.2)
        | none => (none, none, r.2)
      | _ => (none, none, st)
    else (none, none, st)
  let dlPath? := dlOutcome.1
  let s3Info? := dlOutcome.2.1
  let st' := dlOutcome.2.2
  let procResult? : Option Json :=
    match dlPath? with
    | some p =>
      if processAmendment && fwId?.isSome && endsPdfCI p then
        match env.procOutcome with
        | .ok j => some j
        | .error _ => some (.obj [("success", .bool false), ("error", .str "processing error")])
      else none
    | none => none
  match updateInfo with
  | .obj kvs =>
    let kvs1 := setKV kvs "downloaded_path"
      (match dlPath? with | some p => .str p | none => .null)
    let kvs2 :=
      match s3Info? with
      | some (a, b, c) =>
        setKV (setKV (setKV kvs1 "s3_url" (.str a)) "s3_key" (.str b)) "s3_stored_name" (.str c)
      | none => kvs1
    let kvs3 :=
      match procResult? with
      | some j => setKV kvs2 "processing_result" j
      | none => kvs2
    pure (.obj kvs3, st')
  | _ => throw .typeError

/-! ### Helper lemmas -/

/-- Looking up a key just assigned. -/
theorem getKV_setKV (kvs : List (String × Json)) (k : String) (v : Json) :
    getKV (setKV kvs k v) k = some v := by
  induction kvs with
  | nil => simp [setKV, getKV]
  | cons p rest ih =>
    obtain ⟨k', w⟩ := p
    by_cases h : k' = k
    · simp [setKV, getKV, h]
    · simp [setKV, getKV, h, ih]

/-! ### Claim C10 -/

/-- Claim C10: the date-validation step never upgrades `has_update`.
For every verdict dict whose `has_update` is falsy (false, absent, null,
0, empty), validation returns the dict unchanged, even when its
`latest_update_date` is after the baseline and a `document_url` is
present. -/
theorem c10_validate_never_upgrades (kvs : List (String × Json)) (baseline : String)
    (h : truthyO (getKV kvs "has_update") = false) :
    validateDates (Json.obj kvs) baseline = .ok (Json.obj kvs) := by
  simp [validateDates, jsonGetE, h, Bind.bind, Except.bind, Pure.pure, Except.pure]

/-- Witness for C10 at a concrete verdict whose date is after the
baseline and whose `document_url` is present. -/
theorem c10_witness :
    truthyO (getKV [("has_update", Json.bool false),
      ("latest_update_date", Json.str "2030-01-01"),
      ("document_url", Json.str "https://x.org/y.pdf")] "has_update") = false ∧
    validateDates (Json.obj [("has_update", Json.bool false),
      ("latest_update_date", Json.str "2030-01-01"),
      ("document_url", Json.str "https://x.org/y.pdf")]) "2020-01-01"
      = .ok (Json.obj [("has_update", Json.bool false),
        ("latest_update_date", Json.str "2030-01-01"),
        ("document_url", Json.str "https://x.org/y.pdf")]) :=
  ⟨rfl, c10_validate_never_upgrades _ "2020-01-01" rfl⟩

/-! ### Claim C1 -/

/-- Counterexample to claim C1 as stated.  The raw response
`{"has_update": false, "latest_update_date": "2030-01-01"}` with baseline
`2020-01-01` parses strictly; the returned verdict keeps `has_update`
falsy although its `latest_update_date` is strictly after the baseline
and no `document_url` is present, so "has_update is true iff the date is
strictly after the baseline" fails: validation never upgrades. -/
theorem c1_counterexample :
    query_perplexity_api true "2020-01-01"
        (.ok "\x7b\"has_update\": false, \"latest_update_date\": \"2030-01-01\"\x7d")
      = .ok (Json.obj [("has_update", Json.bool false),
          ("latest_update_date", Json.str "2030-01-01")]) ∧
    parseAnyFormat "2030-01-01".data = some 20300101 ∧
    parseYMD "2020-01-01".data = some 20200101 ∧
    getKV [("has_update", Json.bool false),
      ("latest_update_date", Json.str "2030-01-01")] "document_url" = none ∧
    ¬ (truthyO (getKV [("has_update", Json.bool false),
        ("latest_update_date", Json.str "2030-01-01")] "has_update") = true
       ↔ (20200101 : Nat) < 20300101) := by
  refine ⟨rfl, rfl, rfl, rfl, ?_⟩
  intro h
  have := h.mpr (by norm_num)
  simp [getKV, truthyO, truthy] at this

/-- Claim C1, amended: when the extracted verdict enters validation with
a truthy `has_update` and a truthy string `latest_update_date` that
parses in one of the accepted formats, and the baseline parses, the
returned `has_update` is truthy iff the claimed date is strictly after
the baseline or a `document_url` is present.  (Verdicts with falsy
`has_update` are returned unchanged — validation never upgrades — and an
unparseable claimed date leaves the verdict unchanged.) -/
theorem c1_validate_iff (kvs : List (String × Json)) (baseline s : String) (d lk : Nat)
    (h1 : truthyO (getKV kvs "has_update") = true)
    (h2 : getKV kvs "latest_update_date" = some (Json.str s))
    (h3 : s ≠ "")
    (h4 : parseAnyFormat s.data = some d)
    (h5 : parseYMD baseline.data = some lk) :
    ∃ kvs', validateDates (Json.obj kvs) baseline = .ok (Json.obj kvs') ∧
      (truthyO (getKV kvs' "has_update") = true
        ↔ (lk < d ∨ truthyO (getKV kvs "document_url") = true)) := by
  have hl : truthy (Json.str s) = true := by simp [truthy, h3]
  have hos : ∀ v : Json, truthyO (some v) = truthy v := fun _ => rfl
  by_cases hurl : truthyO (getKV kvs "document_url") = true
  · refine ⟨kvs, ?_, ?_⟩
    · simp [validateDates, jsonGetE, Bind.bind, Except.bind, Pure.pure, Except.pure,
        h1, h2, hos, hl, h4, h5, hurl]
    · simp [h1, hurl]
  · have hurl' : truthyO (getKV kvs "document_url") = false := by
      revert hurl; cases truthyO (getKV kvs "document_url") <;> simp
    by_cases hle : d ≤ lk
    · refine ⟨setKV kvs "has_update" (Json.bool false), ?_, ?_⟩
      · simp [validateDates, jsonGetE, Bind.bind, Except.bind, Pure.pure, Except.pure,
          h1, h2, hos, hl, h4, h5, hurl', hle, jsonSetTop]
      · rw [getKV_setKV]
        simp [truthy, hurl', hos]
        omega
    · refine ⟨kvs, ?_, ?_⟩
      · simp [validateDates, jsonGetE, Bind.bind, Except.bind, Pure.pure, Except.pure,
          h1, h2, hos, hl, h4, h5, hurl', hle]
      · simp [h1, hurl']
        omega

/-- Witness for the amended C1: a truthy verdict whose parseable date is
before the baseline and with no `document_url` comes back with
`has_update` forced to false. -/
theorem c1_witness :
    ∃ kvs', validateDates (Json.obj [("has_update", Json.bool true),
        ("latest_update_date", Json.str "2025-08-01")]) "2025-09-13" = .ok (Json.obj kvs') ∧
      (truthyO (getKV kvs' "has_update") = true
        ↔ ((20250913 : Nat) < 20250801 ∨
           truthyO (getKV [("has_update", Json.bool true),
             ("latest_update_date", Json.str "2025-08-01")] "document_url") = true)) :=
  c1_validate_iff _ "2025-09-13" "2025-08-01" 20250801 20250913 rfl rfl
    (by decide) rfl rfl

/-! ### Claim C2 -/

/-- Counterexample to claim C2 as stated.  A verdict with truthy
`has_update`, a `latest_update_date` of `October 1, 2025` (which parses
in none of the four accepted formats) and no `document_url` is returned
unchanged — `has_update` stays true — although the claim requires it to
be forced to false exactly when `document_url` is absent.  (Each failed
`strptime` is swallowed by the inner `except ValueError`, so the outer
handler never runs.) -/
theorem c2_counterexample :
    parseAnyFormat "October 1, 2025".data = none ∧
    getKV [("has_update", Json.bool true),
      ("latest_update_date", Json.str "October 1, 2025")] "document_url" = none ∧
    validateDates (Json.obj [("has_update", Json.bool true),
        ("latest_update_date", Json.str "October 1, 2025")]) "2025-01-01"
      = .ok (Json.obj [("has_update", Json.bool true),
          ("latest_update_date", Json.str "October 1, 2025")]) ∧
    truthyO (getKV [("has_update", Json.bool true),
      ("latest_update_date", Json.str "October 1, 2025")] "has_update") = true :=
  ⟨rfl, rfl, rfl, rfl⟩

/-- Claim C2, amended: when `has_update` is truthy and the
`latest_update_date` is a truthy string that parses in none of the
accepted formats, the reconciliation step returns the verdict unchanged
— it leaves `has_update` true both when `document_url` is present and
when it is absent (it forces false on a parse failure only when the
baseline itself fails to parse while the claimed date parses, and no
`document_url` is present). -/
theorem c2_validate_unparseable_unchanged (kvs : List (String × Json)) (baseline s : String)
    (h1 : truthyO (getKV kvs "has_update") = true)
    (h2 : getKV kvs "latest_update_date" = some (Json.str s))
    (h3 : s ≠ "")
    (h4 : parseAnyFormat s.data = none) :
    validateDates (Json.obj kvs) baseline = .ok (Json.obj kvs) := by
  simp [validateDates, jsonGetE, h1, h2, truthyO, truthy, h3, h4,
    Bind.bind, Except.bind, Pure.pure, Except.pure]

/-- Witness for the amended C2. -/
theorem c2_witness :
    validateDates (Json.obj [("has_update", Json.bool true),
        ("latest_update_date", Json.str "sometime in fall")]) "2025-01-01"
      = .ok (Json.obj [("has_update", Json.bool true),
          ("latest_update_date", Json.str "sometime in fall")]) :=
  c2_validate_unparseable_unchanged _ "2025-01-01" "sometime in fall" rfl rfl
    (by decide) rfl

/-! ### Claim C5 -/

/-- Claim C5: whenever the extraction tiers deliver no verdict (a falsy
parse result, e.g. the response `null`, `false`, `[]`, or an empty
recovered object — the heuristic tier itself always yields a truthy
dict, so no truthy verdict exists exactly in these cases),
`query_perplexity_api` returns the terminal neutral verdict:
`has_update = false`, `latest_update_date` equal to the supplied
baseline, `document_url = null`. -/
theorem c5_terminal_neutral (content baseline : String)
    (h : truthy (extractParsed content baseline) = false) :
    query_perplexity_api true baseline (.ok content) = .ok (neutralVerdict baseline) := by
  have hv : validateDates (neutralVerdict baseline) baseline = .ok (neutralVerdict baseline) := by
    simp [validateDates, neutralVerdict, jsonGetE, getKV, truthyO, truthy,
      Bind.bind, Except.bind, Pure.pure, Except.pure]
  have hc : checkDocUrl (neutralVerdict baseline) = .ok () := by
    simp [checkDocUrl, neutralVerdict, jsonGetE, getKV, truthyO, truthy,
      Bind.bind, Except.bind, Pure.pure, Except.pure]
  simp [query_perplexity_api, h, hv, hc, Bind.bind, Except.bind, Pure.pure, Except.pure]

/-- Witness for C5: the response `null` parses strictly to a falsy value
and yields the neutral verdict. -/
theorem c5_witness :
    truthy (extractParsed "null" "2025-09-13") = false ∧
    query_perplexity_api true "2025-09-13" (.ok "null") = .ok (neutralVerdict "2025-09-13") :=
  ⟨rfl, c5_terminal_neutral "null" "2025-09-13" rfl⟩

/-! ### Claim C6 -/

/-- A successful fence extraction implies the opening literal occurs. -/
theorem fenceExtract_some_contains (tag t m : List Char)
    (h : fenceExtract tag t = some m) : containsSub t tag = true := by
  unfold fenceExtract at h
  unfold containsSub
  cases hs : splitFirst tag t with
  | none => rw [hs] at h; exact absurd h (by simp)
  | some p => simp [hs]

/-- Claim C6: `_clean_response_content` is total (it is a plain function
into `String`) and follows the stated priority order: the content of a
```json fenced block when one closes; otherwise the content of any
fenced block; otherwise the first balanced-looking brace-delimited
substring, stripped; otherwise the original text, stripped.  The
fence-presence guards of the source never change this order. -/
theorem c6_clean_priority (t : String) :
    (∀ m, fenceExtract jsonTagL t.data = some m → clean_response_content t = ⟨m⟩) ∧
    (fenceExtract jsonTagL t.data = none →
      ∀ m, fenceExtract fenceL t.data = some m → clean_response_content t = ⟨m⟩) ∧
    (fenceExtract jsonTagL t.data = none → fenceExtract fenceL t.data = none →
      ∀ m, braceSearch t.data = some m → clean_response_content t = ⟨stripL m⟩) ∧
    (fenceExtract jsonTagL t.data = none → fenceExtract fenceL t.data = none →
      braceSearch t.data = none → clean_response_content t = ⟨stripL t.data⟩) := by
  refine ⟨?_, ?_, ?_, ?_⟩
  · intro m hm
    have hc := fenceExtract_some_contains _ _ _ hm
    simp [clean_response_content, cleanList, hc, hm]
  · intro hn m hm
    have hc := fenceExtract_some_contains _ _ _ hm
    cases hcj : containsSub t.data jsonTagL <;>
      simp [clean_response_content, cleanList, hcj, hn, cleanFence, hc, hm]
  · intro hn hn2 m hm
    cases hcj : containsSub t.data jsonTagL <;>
      cases hcf : containsSub t.data fenceL <;>
        simp [clean_response_content, cleanList, hcj, hn, cleanFence, hcf, hn2,
          cleanBrace, hm]
  · intro hn hn2 hb
    cases hcj : containsSub t.data jsonTagL <;>
      cases hcf : containsSub t.data fenceL <;>
        simp [clean_response_content, cleanList, hcj, hn, cleanFence, hcf, hn2,
          cleanBrace, hb]

/-- Witness for C6: a ```json fenced block wins over a later brace
substring. -/
theorem c6_witness :
    fenceExtract jsonTagL ("pre ```json \x7b\"a\": 1\x7d ``` post \x7bz\x7d").data
      = some ("\x7b\"a\": 1\x7d".data) ∧
    clean_response_content "pre ```json \x7b\"a\": 1\x7d ``` post \x7bz\x7d"
      = "\x7b\"a\": 1\x7d" :=
  ⟨rfl, (c6_clean_priority _).1 _ rfl⟩

/-! ### Claim C7 -/

/-- When the pattern's first character does not occur in `a`, the first
occurrence of the pattern in `a ++ pat ++ b` is exactly after `a`. -/
theorem splitFirst_of_head_notin (p : Char) (ps a b : List Char) (h : p ∉ a) :
    splitFirst (p :: ps) (a ++ ((p :: ps) ++ b)) = some (a, b) := by
  induction a with
  | nil =>
    have hpre : (p :: ps).isPrefixOf ((p :: ps) ++ b) = true :=
      List.isPrefixOf_iff_prefix.mpr (List.prefix_append _ _)
    simp [splitFirst, hpre]
  | cons c a' ih =>
    have hpc : p ≠ c := fun he => h (he ▸ List.mem_cons_self c a')
    have h' : p ∉ a' := fun hm => h (List.mem_cons_of_mem _ hm)
    have hnp : (p :: ps).isPrefixOf (c :: (a' ++ ((p :: ps) ++ b))) = false := by
      simp [List.isPrefixOf, hpc]
    have hstep : (c :: a') ++ ((p :: ps) ++ b) = c :: (a' ++ ((p :: ps) ++ b)) := rfl
    rw [hstep]
    simp only [splitFirst, hnp, Bool.false_eq_true, if_false, ih h']

/-- The normalizer on a response consisting of backtick-free prose, a
```json fenced block with backtick-free content, and arbitrary trailing
text: it extracts exactly the stripped block content. -/
theorem cleanList_fenced (pre s post : List Char) (hp : tick ∉ pre) (hs : tick ∉ s) :
    cleanList (pre ++ (jsonTagL ++ (s ++ (fenceL ++ post)))) = stripL s := by
  have hjson : jsonTagL = tick :: "``json".data := by decide
  have hfence : fenceL = tick :: "``".data := by decide
  have h1 : splitFirst jsonTagL (pre ++ (jsonTagL ++ (s ++ (fenceL ++ post))))
      = some (pre, s ++ (fenceL ++ post)) := by
    rw [hjson]
    exact splitFirst_of_head_notin tick _ pre (s ++ (fenceL ++ post)) hp
  have h2 : splitFirst fenceL (s ++ (fenceL ++ post)) = some (s, post) := by
    rw [hfence]
    exact splitFirst_of_head_notin tick _ s post hs
  have hcont : containsSub (pre ++ (jsonTagL ++ (s ++ (fenceL ++ post)))) jsonTagL = true := by
    simp [containsSub, h1]
  simp only [cleanList, hcont, if_true, fenceExtract, h1, h2]

/-- Counterexample to claim C7 as stated.  The valid JSON object
`{"a":{"b":{"c":1}}}` wrapped in the prose `See: ` (no fenced markdown)
is mangled by the extraction pipeline: the brace regex cannot express
nesting depth 3, so its leftmost match is the inner `{"b":{"c":1}}` and
the recovered verdict differs from parsing the object directly (the key
`a` is lost). -/
theorem c7_counterexample :
    Json.parse "\x7b\"a\":\x7b\"b\":\x7b\"c\":1\x7d\x7d\x7d"
      = some (Json.obj [("a", Json.obj [("b", Json.obj [("c", Json.num 1)])])]) ∧
    extractParsed "See: \x7b\"a\":\x7b\"b\":\x7b\"c\":1\x7d\x7d\x7d" "2025-09-13"
      = Json.obj [("b", Json.obj [("c", Json.num 1)])] ∧
    getKV [("b", Json.obj [("c", Json.num 1)])] "a" = none ∧
    getKV [("a", Json.obj [("b", Json.obj [("c", Json.num 1)])])] "a" ≠ none := by
  refine ⟨rfl, rfl, rfl, ?_⟩
  simp [getKV]

/-- Claim C7, amended: the round-trip holds for fenced wrapping.  For
every syntactically valid JSON text `s` free of backticks, wrapped in a
```json fenced block with backtick-free leading prose and arbitrary
trailing text, the extraction pipeline (normalization followed by
parsing) recovers exactly the value obtained by parsing `s` directly.
(Plain prose wrapping is excluded: the brace-scan stage only supports
nesting depth 2, see the counterexample.) -/
theorem c7_fenced_roundtrip (pre s post : List Char) (baseline : String) (v : Json)
    (hp : tick ∉ pre) (hs : tick ∉ s)
    (hv : Json.parse ⟨stripL s⟩ = some v) :
    extractParsed ⟨pre ++ (jsonTagL ++ (s ++ (fenceL ++ post)))⟩ baseline = v ∧
    Json.parse ⟨stripL s⟩ = some v := by
  refine ⟨?_, hv⟩
  have hc : clean_response_content ⟨pre ++ (jsonTagL ++ (s ++ (fenceL ++ post)))⟩
      = ⟨stripL s⟩ := by
    simp only [clean_response_content]
    rw [cleanList_fenced pre s post hp hs]
  simp only [extractParsed, hc, hv]

/-- Witness for the amended C7 at a concrete fenced wrapping. -/
theorem c7_witness :
    extractParsed ⟨"Sure! ".data ++ (jsonTagL ++
        (" \x7b\"has_update\": true\x7d ".data ++ (fenceL ++ " done".data)))⟩ "2025-09-13"
      = Json.obj [("has_update", Json.bool true)] ∧
    Json.parse ⟨stripL " \x7b\"has_update\": true\x7d ".data⟩
      = some (Json.obj [("has_update", Json.bool true)]) :=
  c7_fenced_roundtrip "Sure! ".data " \x7b\"has_update\": true\x7d ".data " done".data
    "2025-09-13" (Json.obj [("has_update", Json.bool true)]) (by decide) (by decide) rfl

/-! ### Claim C9 -/

/-- A successful `lastOcc` marks an occurrence of the pattern. -/
theorem lastOcc_isPre (pat cs : List Char) (j : Nat)
    (h : lastOcc false pat cs = some j) : pat.isPrefixOf (cs.drop j) = true := by
  induction cs generalizing j with
  | nil => simp [lastOcc] at h
  | cons c cs ih =>
    unfold lastOcc at h
    cases hrec : lastOcc false pat cs with
    | some j' =>
      rw [hrec] at h
      cases h
      exact ih j' hrec
    | none =>
      rw [hrec] at h
      by_cases hp : pat.isPrefixOf (c :: cs) = true
      · simp [hp] at h
        cases h
        simpa using hp
      · simp [hp] at h

/-- A match of the case-sensitive PDF-URL pattern ends in `.pdf`. -/
theorem matchU1At_ends_pdf (cs u : List Char)
    (h : matchU1At false cs = some u) : ∃ w, u = w ++ ".pdf".data := by
  unfold matchU1At at h
  cases hh : matchHttp false cs with
  | none => rw [hh] at h; exact absurd h (by simp)
  | some p =>
    obtain ⟨pre, rest⟩ := p
    simp only [hh] at h
    cases ho : lastOcc false ".pdf".data (rest.takeWhile urlChar) with
    | none => simp only [ho] at h; exact absurd h (by simp)
    | some j =>
      simp only [ho] at h
      by_cases hj : 1 ≤ j
      · simp only [hj, if_true] at h
        have h' := Option.some.inj h
        subst h'
        have hpre := lastOcc_isPre _ _ _ ho
        have hpfx : ".pdf".data <+: (rest.takeWhile urlChar).drop j :=
          List.isPrefixOf_iff_prefix.mp hpre
        have htake : (rest.takeWhile urlChar).take (j + 4)
            = (rest.takeWhile urlChar).take j ++ ".pdf".data := by
          rw [List.take_add]
          congr 1
          exact (List.prefix_iff_eq_take.mp hpfx).symm
        exact ⟨pre ++ (rest.takeWhile urlChar).take j,
          by rw [htake, List.append_assoc]⟩
      · simp [hj] at h

/-- A successful position search comes from a successful matcher call. -/
theorem searchAt_some (m : List Char → Option (List Char)) (cs u : List Char)
    (h : searchAt m cs = some u) : ∃ t, m t = some u := by
  induction cs with
  | nil => exact ⟨[], by simpa [searchAt] using h⟩
  | cons c cs ih =>
    unfold searchAt at h
    cases hm : m (c :: cs) with
    | some r => rw [hm] at h; cases h; exact ⟨c :: cs, hm⟩
    | none => rw [hm] at h; exact ih h

/-- Counterexample to claim C9 as stated.  The response
`The PDF is at https://x.com/a.pdf indeed` is not "exactly a bare URL",
yet `find_actual_pdf_url` extracts and returns the embedded URL instead
of returning no result. -/
theorem c9_counterexample :
    find_actual_pdf_url (.ok "The PDF is at https://x.com/a.pdf indeed")
      = some "https://x.com/a.pdf" ∧
    stripL "The PDF is at https://x.com/a.pdf indeed".data ≠ "https://x.com/a.pdf".data :=
  ⟨rfl, by decide⟩

/-- Claim C9, amended: `find_actual_pdf_url` never raises (every
exception of the second model query yields `None`); the sentinel
`NOT_FOUND` yields `None`; and a URL is returned only when the stripped
response is not the sentinel, contains `.pdf` case-insensitively,
contains `http`, and an `https?://...\.pdf` token occurs in it — the
returned value is that token (it need not be the whole response) and
always ends in `.pdf`. -/
theorem c9_characterization :
    (∀ e, find_actual_pdf_url (.error e) = none) ∧
    (∀ content : String, stripL content.data = "NOT_FOUND".data →
      find_actual_pdf_url (.ok content) = none) ∧
    (∀ (content u : String), find_actual_pdf_url (.ok content) = some u →
      (∃ w, u.data = w ++ ".pdf".data) ∧
      stripL content.data ≠ "NOT_FOUND".data ∧
      containsSub (lowerL (stripL content.data)) ".pdf".data = true ∧
      containsSub (stripL content.data) "http".data = true) := by
  refine ⟨fun _ => rfl, ?_, ?_⟩
  · intro content h
    simp [find_actual_pdf_url, h]
  · intro content u h
    unfold find_actual_pdf_url at h
    by_cases he : (stripL content.data).isEmpty = true
    · simp [he] at h
    by_cases h1 : stripL content.data = "NOT_FOUND".data
    · simp [h1] at h
    by_cases h2 : containsSub (lowerL (stripL content.data)) ".pdf".data = true
    · by_cases h3 : containsSub (stripL content.data) "http".data = true
      · refine ⟨?_, h1, h2, h3⟩
        cases hsearch : searchAt (matchU1At false) (stripL content.data) with
        | none => simp [he, h1, h2, h3, hsearch] at h
        | some w =>
          simp [he, h1, h2, h3, hsearch] at h
          obtain ⟨t, hm⟩ := searchAt_some _ _ _ hsearch
          obtain ⟨ww, hww⟩ := matchU1At_ends_pdf _ _ hm
          subst h
          exact ⟨ww, hww⟩
      · simp [h3] at h
    · simp [h2] at h

/-- Witness for the amended C9 at a concrete prose response. -/
theorem c9_witness :
    (∃ w, ("https://x.com/a.pdf" : String).data = w ++ ".pdf".data) ∧
    stripL "see https://x.com/a.pdf now".data ≠ "NOT_FOUND".data ∧
    containsSub (lowerL (stripL "see https://x.com/a.pdf now".data)) ".pdf".data = true ∧
    containsSub (stripL "see https://x.com/a.pdf now".data) "http".data = true :=
  c9_characterization.2.2 "see https://x.com/a.pdf now" "https://x.com/a.pdf" rfl

/-! ### Claims C3 and C4 -/

/-- A stored file's name is among the directory's names. -/
theorem mem_fileNames_of_mem (st : DlState) (n : String) (b : List Nat)
    (h : (n, b) ∈ st.files) : n ∈ fileNames st := by
  simp only [fileNames, List.mem_map]
  exact ⟨(n, b), h, rfl⟩

/-- Deleting a freshly written file restores the directory. -/
theorem removeFile_addFile (st : DlState) (n : String) (b : List Nat)
    (h : n ∉ fileNames st) : removeFile (addFile st n b) n = st := by
  have hkeep : st.files.filter (fun p => p.1 ≠ n) = st.files := by
    apply List.filter_eq_self.mpr
    intro p hp
    have : p.1 ∈ fileNames st := by
      simp only [fileNames, List.mem_map]; exact ⟨p, hp, rfl⟩
    simp only [decide_eq_true_eq]
    intro he
    exact h (he ▸ this)
  simp only [removeFile, addFile, List.filter_append, hkeep]
  have : List.filter (fun p => p.1 ≠ n) [(n, b)] = [] := by simp
  rw [this, List.append_nil]

/-- Names after writing a file. -/
theorem fileNames_addFile (st : DlState) (n : String) (b : List Nat) :
    fileNames (addFile st n b) = fileNames st ++ [n] := by
  simp [fileNames, addFile]

/-- The temporary and the permanent name differ (same stem, different
extension). -/
theorem tempName_ne_pdfFinalName (dir fw ts : String) :
    tempName dir fw ts ≠ pdfFinalName dir fw ts := by
  intro h
  have hd := congrArg String.data h
  simp only [tempName, pdfFinalName, String.data_append] at hd
  have := List.append_cancel_left hd
  exact absurd this (by decide)

/-- Whatever the retry loop returns successfully is the body of one of
the environment's attempts. -/
theorem dlLoop_ok_attempt (attempts : Nat → AttemptOutcome) (resolve : Nat → Option String)
    (hasKey : Bool) (fuel : Nat) :
    ∀ url rc ai ri body ct,
      dlLoop attempts resolve hasKey fuel url rc ai ri = .ok (body, ct) →
      ∃ i, attempts i = .success body ct := by
  induction fuel with
  | zero => intro url rc ai ri body ct h; simp [dlLoop] at h
  | succ fuel ih =>
    intro url rc ai ri body ct h
    unfold dlLoop at h
    cases ha : attempts ai with
    | success b c =>
      simp only [ha] at h
      cases h
      exact ⟨ai, ha⟩
    | httpFail status =>
      simp only [ha] at h
      split at h
      · split at h
        · split at h
          · exact ih _ _ _ _ _ _ h
          · exact ih _ _ _ _ _ _ h
        · exact ih _ _ _ _ _ _ h
      · split at h
        · simp at h
        · exact ih _ _ _ _ _ _ h
    | reqFail =>
      simp only [ha] at h
      split at h
      · simp at h
      · exact ih _ _ _ _ _ _ h
    | otherFail =>
      simp only [ha] at h
      split at h
      · simp at h
      · exact ih _ _ _ _ _ _ h

/-- Validation rejects a body without the magic signature: the file is
deleted and the state restored. -/
theorem processResponse_bad_magic (fw ts dir : String) (body : List Nat) (ct : String)
    (s3 : S3Outcome) (st : DlState)
    (hm : body.take 4 ≠ pdfMagic) (hfresh : tempName dir fw ts ∉ fileNames st) :
    processResponse fw ts dir body ct s3 st = (none, st) := by
  unfold processResponse
  rw [if_pos hm, removeFile_addFile _ _ _ hfresh]

/-- Validation rejects an oversized body, whatever its magic number. -/
theorem processResponse_reject_oversize (fw ts dir : String) (body : List Nat) (ct : String)
    (s3 : S3Outcome) (st : DlState)
    (hs : maxBytes < body.length) (hfresh : tempName dir fw ts ∉ fileNames st) :
    processResponse fw ts dir body ct s3 st = (none, st) := by
  by_cases hm : body.take 4 = pdfMagic
  · unfold processResponse
    rw [if_neg (by simp [hm]), if_pos hs, removeFile_addFile _ _ _ hfresh]
  · exact processResponse_bad_magic _ _ _ _ _ _ _ hm hfresh

/-- State characterisation of the validation step: the temporary file
never survives, and any file stored under the permanent name passed both
the magic-number check and the size check. -/
theorem processResponse_state (fw ts dir : String) (body : List Nat) (ct : String)
    (s3 : S3Outcome) (st : DlState)
    (hft : tempName dir fw ts ∉ fileNames st)
    (hfp : pdfFinalName dir fw ts ∉ fileNames st) :
    ∀ r st', processResponse fw ts dir body ct s3 st = (r, st') →
      tempName dir fw ts ∉ fileNames st' ∧
      ∀ b, (pdfFinalName dir fw ts, b) ∈ st'.files →
        b.take 4 = pdfMagic ∧ b.length ≤ maxBytes := by
  intro r st' h
  by_cases hm : body.take 4 = pdfMagic
  · by_cases hs : maxBytes < body.length
    · rw [processResponse_reject_oversize _ _ _ _ _ _ _ hs hft] at h
      cases h
      exact ⟨hft, fun b hb => absurd (mem_fileNames_of_mem _ _ _ hb) hfp⟩
    · unfold processResponse at h
      rw [if_neg (by simp [hm]), if_neg hs, removeFile_addFile _ _ _ hft] at h
      have hst : st' = addFile st (pdfFinalName dir fw ts) body := by
        cases s3 <;> (cases h; rfl)
      subst hst
      constructor
      · rw [fileNames_addFile]
        simp only [List.mem_append, List.mem_singleton]
        rintro (hin | heq)
        · exact hft hin
        · exact tempName_ne_pdfFinalName dir fw ts heq
      · intro b hb
        simp only [addFile, List.mem_append, List.mem_singleton] at hb
        rcases hb with hin | heq
        · exact absurd (mem_fileNames_of_mem _ _ _ hin) hfp
        · cases heq
          exact ⟨hm, by omega⟩
  · rw [processResponse_bad_magic _ _ _ _ _ _ _ hm hft] at h
    cases h
    exact ⟨hft, fun b hb => absurd (mem_fileNames_of_mem _ _ _ hb) hfp⟩

/-- Claim C3: `download_document` never returns a successful result for
a response whose first bytes are not the PDF magic signature, whatever
the URL, the retry path taken, or the declared content-type: the
temporary file is deleted and the function reports the document
unavailable, leaving the directory unchanged. -/
theorem c3_magic_invariant (fw ts docUrl dir mediaRoot : String)
    (hasKey storeInMedia : Bool) (env : DlEnv) (st : DlState)
    (hbad : ∀ i body ct, env.attempts i = AttemptOutcome.success body ct →
      body.take 4 ≠ pdfMagic)
    (hfresh : tempName (if storeInMedia then mediaRoot ++ "/change_management" else dir)
      fw ts ∉ fileNames st) :
    download_document fw ts docUrl dir hasKey storeInMedia mediaRoot env st = (none, st) := by
  unfold download_document
  by_cases h0 : docUrl = ""
  · rw [if_pos h0]
  · rw [if_neg h0]
    dsimp only
    split
    · rfl
    · rename_i url0 rIdx0 heq
      cases hloop : dlLoop env.attempts env.resolve hasKey 3 url0 0 0 rIdx0 with
      | error e => simp [hloop]
      | ok pr =>
        obtain ⟨body, ct⟩ := pr
        simp only [hloop]
        obtain ⟨i, hi⟩ := dlLoop_ok_attempt _ _ _ _ _ _ _ _ _ _ hloop
        exact processResponse_bad_magic _ _ _ _ _ _ _ (hbad i body ct hi) hfresh

/-- Witness for C3: an HTML body (not starting with `%PDF`) is rejected
and the directory is left unchanged. -/
theorem c3_witness :
    download_document "FW" "20250913" "https://x.org/a.pdf" "downloads" true false "media"
      ⟨fun _ => AttemptOutcome.success [60, 104, 116, 109, 108, 62] "text/html",
       fun _ => none, S3Outcome.uploadFail⟩ ⟨[]⟩ = (none, ⟨[]⟩) :=
  c3_magic_invariant "FW" "20250913" "https://x.org/a.pdf" "downloads" "media" true false
    ⟨fun _ => AttemptOutcome.success [60, 104, 116, 109, 108, 62] "text/html",
     fun _ => none, S3Outcome.uploadFail⟩ ⟨[]⟩
    (by intro i body ct h; cases h; decide) (by simp [fileNames])

/-- Claim C4: `download_document` never returns a successful result for
an oversized body (beyond the 15 MB ceiling): the temporary file is
deleted, the result is unavailable and the directory unchanged; and in
every outcome the temporary file is gone and any file stored under the
permanent `.pdf` name passed both the magic-number check and the size
check — the rename happens only after both checks. -/
theorem c4_size_invariant (fw ts docUrl dir mediaRoot : String)
    (hasKey storeInMedia : Bool) (env : DlEnv) (st : DlState) (dirF : String)
    (hdir : dirF = if storeInMedia then mediaRoot ++ "/change_management" else dir)
    (hft : tempName dirF fw ts ∉ fileNames st)
    (hfp : pdfFinalName dirF fw ts ∉ fileNames st) :
    ((∀ i body ct, env.attempts i = AttemptOutcome.success body ct →
        maxBytes < body.length) →
      download_document fw ts docUrl dir hasKey storeInMedia mediaRoot env st = (none, st)) ∧
    (∀ r st', download_document fw ts docUrl dir hasKey storeInMedia mediaRoot env st = (r, st') →
      tempName dirF fw ts ∉ fileNames st' ∧
      ∀ b, (pdfFinalName dirF fw ts, b) ∈ st'.files →
        b.take 4 = pdfMagic ∧ b.length ≤ maxBytes) := by
  subst hdir
  constructor
  · intro hbig
    unfold download_document
    by_cases h0 : docUrl = ""
    · rw [if_pos h0]
    · rw [if_neg h0]
      dsimp only
      split
      · rfl
      · rename_i url0 rIdx0 heq
        cases hloop : dlLoop env.attempts env.resolve hasKey 3 url0 0 0 rIdx0 with
        | error e => simp [hloop]
        | ok pr =>
          obtain ⟨body, ct⟩ := pr
          simp only [hloop]
          obtain ⟨i, hi⟩ := dlLoop_ok_attempt _ _ _ _ _ _ _ _ _ _ hloop
          exact processResponse_reject_oversize _ _ _ _ _ _ _ (hbig i body ct hi) hft
  · intro r st' h
    unfold download_document at h
    by_cases h0 : docUrl = ""
    · rw [if_pos h0] at h
      cases h
      exact ⟨hft, fun b hb => absurd (mem_fileNames_of_mem _ _ _ hb) hfp⟩
    · rw [if_neg h0] at h
      dsimp only at h
      split at h
      · cases h
        exact ⟨hft, fun b hb => absurd (mem_fileNames_of_mem _ _ _ hb) hfp⟩
      · rename_i url0 rIdx0 heq
        cases hloop : dlLoop env.attempts env.resolve hasKey 3 url0 0 0 rIdx0 with
        | error e =>
          rw [hloop] at h
          cases h
          exact ⟨hft, fun b hb => absurd (mem_fileNames_of_mem _ _ _ hb) hfp⟩
        | ok pr =>
          obtain ⟨body, ct⟩ := pr
          rw [hloop] at h
          exact processResponse_state _ _ _ _ _ _ _ hft hfp _ _ h

/-- Witness for C4: a 16 MiB body with a correct magic number is
rejected; a small valid body is accepted and stored under the permanent
name only. -/
theorem c4_witness :
    download_document "FW" "20250913" "https://x.org/a.pdf" "downloads" true false "media"
      ⟨fun _ => AttemptOutcome.success (pdfMagic ++ List.replicate (16 * 1024 * 1024) 0)
        "application/pdf", fun _ => none, S3Outcome.uploadFail⟩ ⟨[]⟩ = (none, ⟨[]⟩) :=
  (c4_size_invariant "FW" "20250913" "https://x.org/a.pdf" "downloads" "media" true false
    ⟨fun _ => AttemptOutcome.success (pdfMagic ++ List.replicate (16 * 1024 * 1024) 0)
      "application/pdf", fun _ => none, S3Outcome.uploadFail⟩ ⟨[]⟩ _ rfl
    (by simp [fileNames]) (by simp [fileNames])).1
    (by
      intro i body ct h
      cases h
      rw [List.length_append, List.length_replicate]
      norm_num [maxBytes, pdfMagic])

/-! ### Claim C8 -/

/-- Claim C8 (code bug): `run_framework_update_check` does not always
return a result record.  When the model responds with valid JSON that is
a truthy non-object — here the array `[1, 2]` — strict parsing succeeds,
the truthiness check at line 396 passes, and the `parsed.get` calls of
line 397 raise `AttributeError`, which propagates out of
`query_perplexity_api` and out of the orchestrator (the query stage is
not wrapped in any try/except).  An HTTP failure of the query call
propagates in the same way.  This contradicts the claim (and the spec's
"extraction failure … never propagated; the core must never assume
well-formedness"): extraction of a malformed response is exactly the
error class that must be recovered. -/
theorem c8_run_raises_on_array_response :
    run_framework_update_check "FW" "2025-09-13" true none none false false
      ⟨.ok "[1, 2]", "20250913", "media",
       ⟨fun _ => AttemptOutcome.reqFail, fun _ => none, S3Outcome.uploadFail⟩,
       .ok (Json.obj [("success", Json.bool true)])⟩ ⟨[]⟩
      = .error .attributeError ∧
    query_perplexity_api true "2025-09-13" (.ok "[1, 2]") = .error .attributeError ∧
    run_framework_update_check "FW" "2025-09-13" true none none false false
      ⟨.error .requestError, "20250913", "media",
       ⟨fun _ => AttemptOutcome.reqFail, fun _ => none, S3Outcome.uploadFail⟩,
       .ok (Json.obj [("success", Json.bool true)])⟩ ⟨[]⟩
      = .error .requestError :=
  ⟨rfl, rfl, rfl⟩
